import Mathlib

/-!
Verification of the domogeek holiday engine.

The development shallowly embeds `pkg/calendar/calendar.go` (and the older
revision `calendar/calendar.go`) of the domogeek repository.

Embedding conventions:
* A Go `time.Time` is a pair of an absolute instant (seconds since the Unix
  epoch, an unbounded `Int`; the code never uses sub-second precision) and its
  `time.Location`.  A `time.Location` is modelled as a fixed UTC offset in
  seconds; the code treats the configured zone as an opaque value used for
  civil-field extraction, which a fixed offset captures.  Two `time.Time`
  values are equal as Go map keys exactly when instant and location agree,
  which is structural equality of the pair.
* Civil (proleptic Gregorian) date arithmetic of the Go `time` package is
  modelled by the standard days-from-civil / civil-from-days algorithms over
  `Int` (epoch 1970-01-01).  `time.Date` normalizes out-of-range fields; the
  embedding inherits this because `daysFromCivil` is linear in the day field.
* Go floating point expressions in `GetEasterDay` only ever hold exact small
  integers, so `math.Floor(a / b)` with `b > 0` is embedded as `Int.ediv`
  (floor division for positive divisors) and the Go integer `%` (truncated
  remainder) as `Int.tmod`.
* Fallible Go calls return `Except`; the CalDAV client interface is a
  function from path and query to `Except String (List Event)`.
-/

namespace Domogeek

/-- Number of days since 1970-01-01 of the civil date `(y, m, d)` in the
proleptic Gregorian calendar (Hinnant's `days_from_civil`); this models the
civil-to-absolute direction of Go `time.Date`. -/
def daysFromCivil (y m d : Int) : Int :=
  let yAdj := if m ≤ 2 then y - 1 else y
  let era := yAdj / 400
  let yoe := yAdj - era * 400
  let mp := (m + 9) % 12
  let doy := (153 * mp + 2) / 5 + d - 1
  let doe := yoe * 365 + yoe / 4 - yoe / 100 + doy
  era * 146097 + doe - 719468

/-- Era index (400-year block) of a day number, first stage of the
civil-from-days conversion. -/
def cfdEra (z : Int) : Int := (z + 719468) / 146097

/-- Day-of-era in `[0, 146096]`. -/
def cfdDoe (z : Int) : Int := (z + 719468) - cfdEra z * 146097

/-- Year-of-era in `[0, 399]`. -/
def cfdYoe (z : Int) : Int :=
  (cfdDoe z - cfdDoe z / 1460 + cfdDoe z / 36524 - cfdDoe z / 146096) / 365

/-- Day-of-year relative to March 1 (0 = March 1). -/
def cfdDoy (z : Int) : Int := cfdDoe z - (365 * cfdYoe z + cfdYoe z / 4 - cfdYoe z / 100)

/-- March-based month index in `[0, 11]` (0 = March). -/
def cfdMp (z : Int) : Int := (5 * cfdDoy z + 2) / 153

/-- Civil day-of-month of a day number. -/
def cfdDay (z : Int) : Int := cfdDoy z - (153 * cfdMp z + 2) / 5 + 1

/-- Civil month of a day number (1 = January). -/
def cfdMonth (z : Int) : Int := cfdMp z + (if cfdMp z < 10 then 3 else -9)

/-- Civil year of a day number. -/
def cfdYear (z : Int) : Int :=
  (if cfdMonth z ≤ 2 then 1 else 0) + cfdYoe z + cfdEra z * 400

/-- Civil date `(year, month, day)` of a day number counted from 1970-01-01
(Hinnant's `civil_from_days`); this models the civil-field extraction
(`Year`, `Month`, `Day`) of the Go `time` package. -/
def civilFromDays (z : Int) : Int × Int × Int := (cfdYear z, cfdMonth z, cfdDay z)

/-- Model of a Go `time.Time`: an absolute instant in seconds since the Unix
epoch together with its location, the latter as a fixed UTC offset in
seconds.  Equality is structural, matching Go `time.Time` map-key equality
for the wall-clock values the calendar code builds. -/
structure GoTime where
  secs : Int
  loc : Int
  deriving DecidableEq

/-- Model of Go `time.Date(y, mo, d, hh, mi, ss, 0, loc)`: the instant of the
given civil datetime in the given location. -/
def goDate (y mo d hh mi ss loc : Int) : GoTime :=
  ⟨daysFromCivil y mo d * 86400 + hh * 3600 + mi * 60 + ss - loc, loc⟩

/-- Model of Go `t.In(loc)`: same instant, displayed in another location. -/
def goIn (t : GoTime) (loc : Int) : GoTime := ⟨t.secs, loc⟩

/-- Model of Go `t.UTC()`. -/
def goUTC (t : GoTime) : GoTime := goIn t 0

/-- Model of Go `t.Add(d)` for a duration of `n` seconds. -/
def goAdd (t : GoTime) (n : Int) : GoTime := ⟨t.secs + n, t.loc⟩

/-- Day number (days since 1970-01-01) of the civil day of `t` in the
location of `t`. -/
def localDays (t : GoTime) : Int := (t.secs + t.loc) / 86400

/-- Seconds elapsed since local midnight of `t` in the location of `t`. -/
def goClock (t : GoTime) : Int := (t.secs + t.loc) % 86400

/-- Model of Go `t.Year()`. -/
def goYear (t : GoTime) : Int := cfdYear (localDays t)

/-- Model of Go `t.Month()`. -/
def goMonth (t : GoTime) : Int := cfdMonth (localDays t)

/-- Model of Go `t.Day()`. -/
def goDay (t : GoTime) : Int := cfdDay (localDays t)

/-- Model of Go `t.Weekday()` (0 = Sunday, ..., 6 = Saturday); day 0 of the
epoch, 1970-01-01, was a Thursday (= 4). -/
def goWeekday (t : GoTime) : Int := (localDays t + 4) % 7

/-- Model of Go `t.AddDate(0, 0, n)`: rebuild the date from the civil fields
of `t` in its own location with the day field shifted by `n`, keeping the
time of day. -/
def goAddDate (t : GoTime) (n : Int) : GoTime :=
  ⟨daysFromCivil (goYear t) (goMonth t) (goDay t + n) * 86400 + goClock t - t.loc, t.loc⟩

/-! Basic facts about the civil conversions. -/

/-! Embedding of `pkg/calendar/calendar.go`. -/

/-- Model of `components.Event` restricted to the one field the calendar
code reads, the event summary. -/
structure Event where
  summary : String
  deriving DecidableEq

/-- Model of the query built by `entities.NewEventRangeQuery`: the pair of
start and finish instants of the queried window, in seconds. -/
structure EventRangeQuery where
  startSecs : Int
  endSecs : Int
  deriving DecidableEq

/-- Model of the `Caldav` capability interface: `QueryEvents(path, query)`
returns a list of events or an error. -/
def Caldav : Type := String → EventRangeQuery → Except String (List Event)

/-- Model of the `Calendar` struct of `pkg/calendar/calendar.go`; a `nil`
CalDAV client is `none`. -/
structure Calendar where
  Location : Int
  cdav : Option Caldav
  caldavPath : String
  caldavSummaryPattern : String

/-- Model of the functional `Option` type of the calendar package. -/
def CalOption : Type := Calendar → Calendar

/-- Model of `WithCaldav`. -/
def WithCaldav (c : Caldav) : CalOption := fun cal => { cal with cdav := some c }

/-- Model of `WithCaldavSummaryPattern`. -/
def WithCaldavSummaryPattern (p : String) : CalOption :=
  fun cal => { cal with caldavSummaryPattern := p }

/-- Model of `WithCaldavPath`. -/
def WithCaldavPath (p : String) : CalOption := fun cal => { cal with caldavPath := p }

/-- Model of `New`: start from `{location, nil, "", ""}` and apply the
options in order. -/
def New (location : Int) (opts : List CalOption) : Calendar :=
  opts.foldl (fun c opt => opt c) ⟨location, none, "", ""⟩

/-- Helper for `strContains`: the pattern occurs at the head of the text. -/
def listStartsWith : List Char → List Char → Bool
  | _, [] => true
  | [], _ :: _ => false
  | c :: s, q :: qs => c == q && listStartsWith s qs

/-- Helper for `strContains`: the pattern occurs contiguously somewhere in
the text. -/
def listContainsSub : List Char → List Char → Bool
  | [], pat => pat.isEmpty
  | c :: s, pat => listStartsWith (c :: s) pat || listContainsSub s pat

/-- Model of Go `strings.Contains(s, pat)`. -/
def strContains (s pat : String) : Bool := listContainsSub s.toList pat.toList

/-! The `GetEasterDay` arithmetic.  Each definition embeds one assignment of
the Go function; the floating point values are exact small integers, Go
`math.Floor(a / b)` with positive `b` is `Int` floor division (`/` below),
and the Go integer `%` is `Int.tmod`. -/

/-- `g := float64(year % 19.0)`. -/
def easterG (year : Int) : Int := Int.tmod year 19

/-- `c := math.Floor(float64(year) / 100.0)`. -/
def easterC (year : Int) : Int := year / 100

/-- `c4 := math.Floor(c / 4.0)`. -/
def easterC4 (year : Int) : Int := easterC year / 4

/-- `h := float64(int(19.0*g+c-c4-math.Floor((8.0*c+13)/25)+15) % 30.0)`. -/
def easterH (year : Int) : Int :=
  Int.tmod (19 * easterG year + easterC year - easterC4 year
    - (8 * easterC year + 13) / 25 + 15) 30

/-- `k := math.Floor(h / 28.0)`. -/
def easterK (year : Int) : Int := easterH year / 28

/-- `i := (k*math.Floor(29./(h+1.))*math.Floor((21.-g)/11.)-1.)*k + h`. -/
def easterI (year : Int) : Int :=
  (easterK year * (29 / (easterH year + 1)) * ((21 - easterG year) / 11) - 1) * easterK year
    + easterH year

/-- `dayWeek := int(math.Floor(float64(year)/4.)+float64(year)+i+2+c4-c) % 7`. -/
def easterDayWeek (year : Int) : Int :=
  Int.tmod (year / 4 + year + easterI year + 2 + easterC4 year - easterC year) 7

/-- `presJour := int(28 + int(i) - dayWeek)`; the day of Easter Sunday
counted with March 1 as day 1. -/
def easterPresJour (year : Int) : Int := 28 + easterI year - easterDayWeek year

/-- `month := 2; if presJour > 31 { month = 3 }; month += 1`. -/
def easterMonth (year : Int) : Int := (if easterPresJour year > 31 then 3 else 2) + 1

/-- `day := presJour - 31; if month == 2 { day = presJour }`. -/
def easterDay (year : Int) : Int :=
  if easterMonth year = 2 then easterPresJour year else easterPresJour year - 31

/-- Model of `GetEasterDay`:
`return time.Date(year, 3, 31, 0, 0, 0, 0, cal.Location).AddDate(0, 0, day)`. -/
def GetEasterDay (cal : Calendar) (year : Int) : GoTime :=
  goAddDate (goDate year 3 31 0 0 0 cal.Location) (easterDay year)

/-- Model of `GetHolidays`: the fixed-date holidays at local midnight plus
Easter Monday (`paques.AddDate(0, 0, 1)`) and Ascension
(`paques.AddDate(0, 0, 39)`), in source order. -/
def GetHolidays (cal : Calendar) (year : Int) : List GoTime :=
  let paques := GetEasterDay cal year
  [ goDate year 1 1 0 0 0 cal.Location,
    goAddDate paques 1,
    goDate year 5 1 0 0 0 cal.Location,
    goDate year 5 8 0 0 0 cal.Location,
    goAddDate paques 39,
    goDate year 7 14 0 0 0 cal.Location,
    goDate year 8 15 0 0 0 cal.Location,
    goDate year 11 1 0 0 0 cal.Location,
    goDate year 11 11 0 0 0 cal.Location,
    goDate year 12 25 0 0 0 cal.Location ]

/-- Model of `GetHolidaysSet`: the Go map from holiday to `true`, viewed as
its lookup function (a missing key yields the zero value `false`). -/
def GetHolidaysSet (cal : Calendar) (year : Int) : GoTime → Bool :=
  fun k => (GetHolidays cal year).contains k

/-- The lookup key `IsHoliday` builds:
`d := date.In(cal.Location); day := time.Date(d.Year(), d.Month(), d.Day(), 0, 0, 0, 0, cal.Location)`. -/
def holidayLookupDay (cal : Calendar) (date : GoTime) : GoTime :=
  let d := goIn date cal.Location
  goDate (goYear d) (goMonth d) (goDay d) 0 0 0 cal.Location

/-- The window queried by `IsHolidaysFromCaldav`:
`entities.NewEventRangeQuery(day.UTC(), day.UTC().Add(23*time.Hour+59*time.Minute))`. -/
def caldavWindow (day : GoTime) : EventRangeQuery :=
  ⟨(goUTC day).secs, (goAdd (goUTC day) (23 * 3600 + 59 * 60)).secs⟩

/-- Model of `IsHolidaysFromCaldav`: `(false, nil)` without a client;
otherwise query the day window and report whether some event summary
contains the configured pattern, or an error. -/
def IsHolidaysFromCaldav (cal : Calendar) (day : GoTime) : Bool × Option String :=
  match cal.cdav with
  | none => (false, none)
  | some client =>
    match client cal.caldavPath (caldavWindow day) with
    | Except.error e => (false, some ("unable list events from caldav: " ++ e))
    | Except.ok events =>
      (events.any fun evt => strContains evt.summary cal.caldavSummaryPattern, none)

/-- Model of `IsHoliday`: the holiday set is computed for `date.Year()` (the
year in the date's own location), the lookup key is the configured-zone
midnight, a CalDAV error is only logged, and the result is the disjunction. -/
def IsHoliday (cal : Calendar) (date : GoTime) : Bool :=
  let h := GetHolidaysSet cal (goYear date)
  let day := holidayLookupDay cal date
  h day || (IsHolidaysFromCaldav cal day).1

/-! Embedding of the older revision `calendar/calendar.go`.  Its
`GetEasterDay` is embedded independently from its own source text. -/

/-- Model of the `Calendar` struct of the older revision
`calendar/calendar.go`, which has only the location field. -/
structure OldCalendar where
  Location : Int

namespace OldRev

/-- Old revision `g := float64(year % 19.0)`. -/
def easterG (year : Int) : Int := Int.tmod year 19

/-- Old revision `c := math.Floor(float64(year) / 100.0)`. -/
def easterC (year : Int) : Int := year / 100

/-- Old revision `c4 := math.Floor(c / 4.0)`. -/
def easterC4 (year : Int) : Int := easterC year / 4

/-- Old revision `h` assignment. -/
def easterH (year : Int) : Int :=
  Int.tmod (19 * easterG year + easterC year - easterC4 year
    - (8 * easterC year + 13) / 25 + 15) 30

/-- Old revision `k := math.Floor(h / 28.0)`. -/
def easterK (year : Int) : Int := easterH year / 28

/-- Old revision `i` assignment. -/
def easterI (year : Int) : Int :=
  (easterK year * (29 / (easterH year + 1)) * ((21 - easterG year) / 11) - 1) * easterK year
    + easterH year

/-- Old revision `dayWeek` assignment. -/
def easterDayWeek (year : Int) : Int :=
  Int.tmod (year / 4 + year + easterI year + 2 + easterC4 year - easterC year) 7

/-- Old revision `presJour := int(28 + int(i) - dayWeek)`. -/
def easterPresJour (year : Int) : Int := 28 + easterI year - easterDayWeek year

/-- Old revision month computation. -/
def easterMonth (year : Int) : Int := (if easterPresJour year > 31 then 3 else 2) + 1

/-- Old revision day computation. -/
def easterDay (year : Int) : Int :=
  if easterMonth year = 2 then easterPresJour year else easterPresJour year - 31

/-- Model of the old revision `GetEasterDay`. -/
def GetEasterDay (cal : OldCalendar) (year : Int) : GoTime :=
  goAddDate (goDate year 3 31 0 0 0 cal.Location) (easterDay year)

end OldRev

/-! Concrete fixtures used by witnesses and counterexamples.  The offset
3600 is the standard (winter) UTC offset of the Europe/Paris zone the
program configures. -/

/-- Calendar fixture: Paris-offset location, no CalDAV client. -/
def calParis : Calendar := ⟨3600, none, "", ""⟩

/-- CalDAV client fixture whose queries always fail. -/
def errClient : Caldav := fun _ _ => Except.error "unreachable"

/-- CalDAV client fixture that always returns one event whose summary
contains the pattern "Holidays". -/
def okHolidayClient : Caldav := fun _ _ => Except.ok [⟨"Holidays ski"⟩]

/-! Facts about the civil conversions. -/

/-- March-form closed expression for `daysFromCivil y 3 p`. -/
theorem daysFromCivil_march (y p : Int) :
    daysFromCivil y 3 p =
      146097 * (y / 400) + (365 * (y % 400) + (y % 400) / 4 - (y % 400) / 100 + (p - 1))
        - 719468 := by
  unfold daysFromCivil
  norm_num
  omega

/-- Recovery of the year-of-era from a day-of-era of the March-anchored
form; the arithmetic core of the civil-from-days conversion on the day
numbers produced by the Easter computation. -/
theorem cfdYoe_core (yoe w E : Int) (h0 : 0 ≤ yoe) (h1 : yoe ≤ 399)
    (hw0 : 21 ≤ w) (hw1 : w ≤ 55)
    (hE : E = 365 * yoe + yoe / 4 - yoe / 100 + w) :
    (E - E / 1460 + E / 36524 - E / 146096) / 365 = yoe := by
  omega

/-- Roundtrip: extracting the civil date of day number `daysFromCivil y 3 p`
for `p ∈ [22, 56]` yields the normalized civil date (March `p`, spilling
into April for `p > 31`). -/
theorem civilFromDays_daysFromCivil_march (y p : Int) (hp1 : 22 ≤ p) (hp2 : p ≤ 56) :
    civilFromDays (daysFromCivil y 3 p) =
      (y, if 31 < p then 4 else 3, if 31 < p then p - 31 else p) := by
  have hdfc := daysFromCivil_march y p
  have hera : cfdEra (daysFromCivil y 3 p) = y / 400 := by
    unfold cfdEra; omega
  have hdoe : cfdDoe (daysFromCivil y 3 p) =
      365 * (y % 400) + (y % 400) / 4 - (y % 400) / 100 + (p - 1) := by
    unfold cfdDoe; rw [hera]; omega
  have hyoe : cfdYoe (daysFromCivil y 3 p) = y % 400 := by
    unfold cfdYoe; rw [hdoe]
    exact cfdYoe_core (y % 400) (p - 1) _ (by omega) (by omega) (by omega) (by omega) rfl
  have hdoy : cfdDoy (daysFromCivil y 3 p) = p - 1 := by
    unfold cfdDoy; rw [hdoe, hyoe]; ring
  have hmp : cfdMp (daysFromCivil y 3 p) = if 31 < p then 1 else 0 := by
    unfold cfdMp; rw [hdoy]
    by_cases hp : 31 < p <;> simp only [hp, reduceIte] <;> omega
  have hday : cfdDay (daysFromCivil y 3 p) = if 31 < p then p - 31 else p := by
    unfold cfdDay; rw [hdoy, hmp]
    by_cases hp : 31 < p <;> simp only [hp, reduceIte] <;> omega
  have hmonth : cfdMonth (daysFromCivil y 3 p) = if 31 < p then 4 else 3 := by
    unfold cfdMonth; rw [hmp]
    by_cases hp : 31 < p <;> simp only [hp, reduceIte] <;> norm_num
  have hyear : cfdYear (daysFromCivil y 3 p) = y := by
    unfold cfdYear; rw [hmonth, hyoe, hera]
    by_cases hp : 31 < p <;> simp only [hp, reduceIte] <;> omega
  unfold civilFromDays
  rw [hyear, hmonth, hday]

/-- Adding 31 to the day in March form crosses into April. -/
theorem daysFromCivil_april (y d : Int) :
    daysFromCivil y 4 d = daysFromCivil y 3 (d + 31) := by
  unfold daysFromCivil
  norm_num
  omega

/-- Applying `goAddDate` to a local midnight whose day number is in March
form (offset `p ∈ [22, 56]`) shifts the day number. -/
theorem goAddDate_march_midnight (y p n loc : Int) (hp1 : 22 ≤ p) (hp2 : p ≤ 56) :
    goAddDate ⟨daysFromCivil y 3 p * 86400 - loc, loc⟩ n =
      ⟨daysFromCivil y 3 (p + n) * 86400 - loc, loc⟩ := by
  have hld : localDays ⟨daysFromCivil y 3 p * 86400 - loc, loc⟩ = daysFromCivil y 3 p := by
    unfold localDays; dsimp only; omega
  have hclock : goClock ⟨daysFromCivil y 3 p * 86400 - loc, loc⟩ = 0 := by
    unfold goClock; dsimp only; omega
  have hciv := civilFromDays_daysFromCivil_march y p hp1 hp2
  have hy : goYear ⟨daysFromCivil y 3 p * 86400 - loc, loc⟩ = y := by
    unfold goYear; rw [hld]
    have := congrArg Prod.fst hciv
    simpa [civilFromDays] using this
  have hm : goMonth ⟨daysFromCivil y 3 p * 86400 - loc, loc⟩ = if 31 < p then 4 else 3 := by
    unfold goMonth; rw [hld]
    have := congrArg (fun q : Int × Int × Int => q.2.1) hciv
    simpa [civilFromDays] using this
  have hd : goDay ⟨daysFromCivil y 3 p * 86400 - loc, loc⟩ = if 31 < p then p - 31 else p := by
    unfold goDay; rw [hld]
    have := congrArg (fun q : Int × Int × Int => q.2.2) hciv
    simpa [civilFromDays] using this
  unfold goAddDate
  rw [hclock, hy, hm, hd]
  by_cases hp : 31 < p
  · simp only [hp, reduceIte]
    rw [show p - 31 + n = p + n - 31 by ring, daysFromCivil_april,
      show p + n - 31 + 31 = p + n by ring]
    norm_num
  · simp only [hp, reduceIte]
    norm_num

/-! Facts about the Easter arithmetic.  Go's truncated `%` agrees with the
Euclidean `%` on the nonnegative operands that arise for years `≥ 1583`, the
range the specification covers. -/

/-- With a nonnegative year the Metonic index is the Euclidean remainder. -/
theorem easterG_eq (y : Int) (h : 0 ≤ y) : easterG y = y % 19 := by
  unfold easterG
  rw [Int.tmod_eq_emod h (by norm_num)]

/-- Euclidean form of the lunar-epact term for Gregorian-era years. -/
theorem easterH_eq (y : Int) (h : 1583 ≤ y) :
    easterH y =
      (19 * (y % 19) + y / 100 - (y / 100) / 4 - (8 * (y / 100) + 13) / 25 + 15) % 30 := by
  unfold easterH easterC4 easterC
  rw [easterG_eq y (by omega)]
  rw [Int.tmod_eq_emod (by omega) (by norm_num)]

/-- The epact term lies in `[0, 29]`. -/
theorem easterH_bounds (y : Int) (h : 1583 ≤ y) : 0 ≤ easterH y ∧ easterH y ≤ 29 := by
  rw [easterH_eq y h]; omega

/-- The corrected epact `i` lies in `[0, 28]`. -/
theorem easterI_bounds (y : Int) (h : 1583 ≤ y) : 0 ≤ easterI y ∧ easterI y ≤ 28 := by
  have hH := easterH_bounds y h
  have hG : 0 ≤ easterG y ∧ easterG y ≤ 18 := by rw [easterG_eq y (by omega)]; omega
  by_cases h27 : easterH y ≤ 27
  · have hK : easterK y = 0 := by unfold easterK; omega
    unfold easterI
    rw [hK]
    norm_num
    omega
  · have h2829 : easterH y = 28 ∨ easterH y = 29 := by omega
    rcases h2829 with h28 | h29
    · unfold easterI easterK
      rw [h28]
      norm_num
      omega
    · unfold easterI easterK
      rw [h29]
      norm_num

/-- The March-based day of Easter Sunday lies in `[22, 56]`, March 22 to
April 25. -/
theorem easterPresJour_bounds (y : Int) (h : 1583 ≤ y) :
    22 ≤ easterPresJour y ∧ easterPresJour y ≤ 56 := by
  have hI := easterI_bounds y h
  unfold easterPresJour easterDayWeek easterC4 easterC
  rw [Int.tmod_eq_emod (by omega) (by norm_num)]
  omega

/-- The day number of March `presJour` is a Sunday: the day-of-week
correction of the algorithm matches the Gregorian calendar of the
embedding. -/
theorem easter_sunday_arith (y : Int) (h : 1583 ≤ y) :
    (daysFromCivil y 3 (easterPresJour y) + 4) % 7 = 0 := by
  have hI := easterI_bounds y h
  have hd4 : y % 400 / 4 = y / 4 - 100 * (y / 400) := by omega
  have hd100 : y % 400 / 100 = y / 100 - 4 * (y / 400) := by omega
  have hd400 : y / 100 / 4 = y / 400 := by omega
  rw [daysFromCivil_march]
  unfold easterPresJour easterDayWeek easterC4 easterC
  rw [Int.tmod_eq_emod (by omega) (by norm_num)]
  omega

/-- The month variable of `GetEasterDay` after the increment, for every
year: 4 when `presJour` spills past March, otherwise 3. -/
theorem easterMonth_eq (y : Int) :
    easterMonth y = if easterPresJour y > 31 then 4 else 3 := by
  unfold easterMonth
  by_cases hp : easterPresJour y > 31 <;> simp [hp]

/-- The day offset of `GetEasterDay` is `presJour - 31` for every year: the
`month == 2` branch never fires. -/
theorem easterDay_eq (y : Int) : easterDay y = easterPresJour y - 31 := by
  unfold easterDay
  rw [easterMonth_eq]
  by_cases hp : easterPresJour y > 31 <;> simp [hp]

/-- Midnight form of `time.Date(year, 3, 31, 0, 0, 0, 0, loc)`. -/
theorem goDate_midnight (y mo d loc : Int) :
    goDate y mo d 0 0 0 loc = ⟨daysFromCivil y mo d * 86400 - loc, loc⟩ := by
  unfold goDate
  norm_num

/-- Closed form of `GetEasterDay`: the local midnight of March
`presJour year` (April for offsets past 31) in the calendar's location. -/
theorem GetEasterDay_eq (cal : Calendar) (y : Int) :
    GetEasterDay cal y =
      ⟨daysFromCivil y 3 (easterPresJour y) * 86400 - cal.Location, cal.Location⟩ := by
  unfold GetEasterDay
  rw [goDate_midnight, easterDay_eq,
    goAddDate_march_midnight y 31 (easterPresJour y - 31) cal.Location (by norm_num) (by norm_num),
    show 31 + (easterPresJour y - 31) = easterPresJour y by ring]

/-- Day-number offsets of the fixed holidays relative to March 31, and the
position of January 1 (89 or 90 days before March 31 depending on leap
year). -/
theorem holiday_offsets (y : Int) :
    daysFromCivil y 5 1 = daysFromCivil y 3 31 + 31 ∧
    daysFromCivil y 5 8 = daysFromCivil y 3 31 + 38 ∧
    daysFromCivil y 7 14 = daysFromCivil y 3 31 + 105 ∧
    daysFromCivil y 8 15 = daysFromCivil y 3 31 + 137 ∧
    daysFromCivil y 11 1 = daysFromCivil y 3 31 + 215 ∧
    daysFromCivil y 11 11 = daysFromCivil y 3 31 + 225 ∧
    daysFromCivil y 12 25 = daysFromCivil y 3 31 + 269 ∧
    daysFromCivil y 3 31 - 90 ≤ daysFromCivil y 1 1 ∧
    daysFromCivil y 1 1 ≤ daysFromCivil y 3 31 - 89 := by
  unfold daysFromCivil
  norm_num
  omega

/-- Closed form of the holiday list for Gregorian-era years: ten local
midnights, with Easter Monday and Ascension in March-anchored form. -/
theorem holidays_eq (cal : Calendar) (y : Int) (h : 1583 ≤ y) :
    GetHolidays cal y =
      [ ⟨daysFromCivil y 1 1 * 86400 - cal.Location, cal.Location⟩,
        ⟨daysFromCivil y 3 (easterPresJour y + 1) * 86400 - cal.Location, cal.Location⟩,
        ⟨daysFromCivil y 5 1 * 86400 - cal.Location, cal.Location⟩,
        ⟨daysFromCivil y 5 8 * 86400 - cal.Location, cal.Location⟩,
        ⟨daysFromCivil y 3 (easterPresJour y + 39) * 86400 - cal.Location, cal.Location⟩,
        ⟨daysFromCivil y 7 14 * 86400 - cal.Location, cal.Location⟩,
        ⟨daysFromCivil y 8 15 * 86400 - cal.Location, cal.Location⟩,
        ⟨daysFromCivil y 11 1 * 86400 - cal.Location, cal.Location⟩,
        ⟨daysFromCivil y 11 11 * 86400 - cal.Location, cal.Location⟩,
        ⟨daysFromCivil y 12 25 * 86400 - cal.Location, cal.Location⟩ ] := by
  have hb := easterPresJour_bounds y h
  simp only [GetHolidays, GetEasterDay_eq]
  rw [goAddDate_march_midnight y (easterPresJour y) 1 cal.Location hb.1 hb.2,
    goAddDate_march_midnight y (easterPresJour y) 39 cal.Location hb.1 hb.2]
  simp only [goDate_midnight]

/-- A Go `strings.Contains` query with the empty pattern matches any text. -/
theorem listContainsSub_nil_pattern (l : List Char) : listContainsSub l [] = true := by
  induction l with
  | nil => rfl
  | cons c s ih => simp [listContainsSub, listStartsWith]

/-- The empty summary pattern is contained in every summary. -/
theorem strContains_empty_pattern (s : String) : strContains s "" = true := by
  unfold strContains
  exact listContainsSub_nil_pattern s.toList

/-! The claim theorems. -/

/-- C1: for year 2020 `GetHolidays` returns exactly the ten civil dates
Jan 1, Apr 13 (Easter Monday), May 1, May 8, May 21 (Ascension), Jul 14,
Aug 15, Nov 1, Nov 11 and Dec 25, each at local midnight in the configured
zone, in the source order. -/
theorem holidays_2020_exact (cal : Calendar) :
    GetHolidays cal 2020 =
      [ goDate 2020 1 1 0 0 0 cal.Location,
        goDate 2020 4 13 0 0 0 cal.Location,
        goDate 2020 5 1 0 0 0 cal.Location,
        goDate 2020 5 8 0 0 0 cal.Location,
        goDate 2020 5 21 0 0 0 cal.Location,
        goDate 2020 7 14 0 0 0 cal.Location,
        goDate 2020 8 15 0 0 0 cal.Location,
        goDate 2020 11 1 0 0 0 cal.Location,
        goDate 2020 11 11 0 0 0 cal.Location,
        goDate 2020 12 25 0 0 0 cal.Location ] := by
  have hpj : easterPresJour 2020 = 43 := by decide
  rw [holidays_eq cal 2020 (by norm_num), hpj]
  simp only [goDate_midnight]
  have d1 : daysFromCivil 2020 3 (43 + 1) = daysFromCivil 2020 4 13 := by decide
  have d2 : daysFromCivil 2020 3 (43 + 39) = daysFromCivil 2020 5 21 := by decide
  rw [d1, d2]

/-- C2 (amended): for every Gregorian-era year the holiday list has exactly
10 entries, but they are pairwise distinct (equivalently, the set view has
cardinality 10) exactly when Easter Sunday falls on neither March 23 nor
March 30, the two days for which Ascension coincides with the fixed
holidays May 1 resp. May 8. -/
theorem GetHolidays_card (cal : Calendar) (y : Int) (h : 1583 ≤ y) :
    (GetHolidays cal y).length = 10 ∧
    ((GetHolidays cal y).Nodup ↔ easterPresJour y ≠ 23 ∧ easterPresJour y ≠ 30) ∧
    ((GetHolidays cal y).Nodup → (GetHolidays cal y).toFinset.card = 10) := by
  have hb := easterPresJour_bounds y h
  have hoff := holiday_offsets y
  have e1 := daysFromCivil_march y (easterPresJour y + 1)
  have e2 := daysFromCivil_march y (easterPresJour y + 39)
  have e3 := daysFromCivil_march y 31
  rw [holidays_eq cal y h]
  refine ⟨rfl, ?_, ?_⟩
  · simp only [List.nodup_cons, List.mem_cons, List.not_mem_nil, GoTime.mk.injEq,
      List.nodup_nil, or_false, and_true, not_or]
    constructor
    · intro hnd
      have t1 := hnd.2.2.1.2.1
      have t2 := hnd.2.2.2.1.1
      constructor <;> omega
    · intro hpj
      repeat' apply And.intro
      all_goals first | omega | exact not_false
  · intro hnd
    rw [List.toFinset_card_of_nodup hnd]
    rfl

/-- C2 (counterexample): in 2008 Easter Sunday is March 23, Ascension is
May 1, and the ten-entry holiday list has a repeated date, so the set view
has cardinality 9, not 10. -/
theorem holidays_2008_repeats :
    (GetHolidays calParis 2008).length = 10 ∧
    ¬ (GetHolidays calParis 2008).Nodup ∧
    (GetHolidays calParis 2008).toFinset.card = 9 := by
  decide

/-- C2 (witness): at year 2020 the amended statement applies, and the ten
entries are pairwise distinct. -/
theorem GetHolidays_card_witness :
    (1583 : Int) ≤ 2020 ∧
    ((GetHolidays calParis 2020).length = 10 ∧
      ((GetHolidays calParis 2020).Nodup ↔
        easterPresJour 2020 ≠ 23 ∧ easterPresJour 2020 ≠ 30) ∧
      ((GetHolidays calParis 2020).Nodup → (GetHolidays calParis 2020).toFinset.card = 10)) :=
  ⟨by norm_num, GetHolidays_card calParis 2020 (by norm_num)⟩

/-- C3: for every Gregorian-era year (`y ≥ 1583`), `GetEasterDay` returns a
date that falls on a Sunday (Go weekday 0) and lies between March 22 and
April 25 of that year inclusive. -/
theorem easter_sunday_in_range (cal : Calendar) (y : Int) (h : 1583 ≤ y) :
    goWeekday (GetEasterDay cal y) = 0 ∧
    (goDate y 3 22 0 0 0 cal.Location).secs ≤ (GetEasterDay cal y).secs ∧
    (GetEasterDay cal y).secs ≤ (goDate y 4 25 0 0 0 cal.Location).secs := by
  have hb := easterPresJour_bounds y h
  have hsun := easter_sunday_arith y h
  rw [GetEasterDay_eq, goDate_midnight, goDate_midnight]
  refine ⟨?_, ?_, ?_⟩
  · unfold goWeekday localDays
    dsimp only
    omega
  · have m1 := daysFromCivil_march y 22
    have m2 := daysFromCivil_march y (easterPresJour y)
    dsimp only
    omega
  · have m2 := daysFromCivil_march y (easterPresJour y)
    have m3 := daysFromCivil_april y 25
    norm_num at m3
    have m4 := daysFromCivil_march y 56
    dsimp only
    omega

/-- C3 (witness): the Sunday-and-range property at year 2020. -/
theorem easter_sunday_in_range_witness :
    (1583 : Int) ≤ 2020 ∧
    (goWeekday (GetEasterDay calParis 2020) = 0 ∧
      (goDate 2020 3 22 0 0 0 calParis.Location).secs ≤ (GetEasterDay calParis 2020).secs ∧
      (GetEasterDay calParis 2020).secs ≤ (goDate 2020 4 25 0 0 0 calParis.Location).secs) :=
  ⟨by norm_num, easter_sunday_in_range calParis 2020 (by norm_num)⟩

/-- C4: when the configured CalDAV client fails on the day's query,
`IsHoliday` still returns the fixed-list membership result for the lookup
day (the same value the override-free calendar returns); the error is only
logged, never propagated — `IsHoliday` is a total boolean function. -/
theorem isholiday_caldav_error_fallback (cal : Calendar) (date : GoTime) (client : Caldav)
    (e : String) (hc : cal.cdav = some client)
    (he : client cal.caldavPath (caldavWindow (holidayLookupDay cal date)) =
      Except.error e) :
    IsHoliday cal date = GetHolidaysSet cal (goYear date) (holidayLookupDay cal date) ∧
    IsHoliday cal date = IsHoliday { cal with cdav := none } date := by
  have h1 : IsHoliday cal date = GetHolidaysSet cal (goYear date) (holidayLookupDay cal date) := by
    simp only [IsHoliday, IsHolidaysFromCaldav, hc, he, Bool.or_false]
  have h2 : IsHoliday { cal with cdav := none } date
      = GetHolidaysSet cal (goYear date) (holidayLookupDay cal date) := by
    simp only [IsHoliday, IsHolidaysFromCaldav, Bool.or_false]
    rfl
  exact ⟨h1, h1.trans h2.symm⟩

/-- C4 (witness): with an always-failing client, `IsHoliday` on 2019-01-02
equals the fixed-list-only result. -/
theorem isholiday_caldav_error_fallback_witness :
    IsHoliday ⟨3600, some errClient, "mycal", "Holidays"⟩ (goDate 2019 1 2 0 0 0 3600) =
      GetHolidaysSet ⟨3600, some errClient, "mycal", "Holidays"⟩
        (goYear (goDate 2019 1 2 0 0 0 3600))
        (holidayLookupDay ⟨3600, some errClient, "mycal", "Holidays"⟩
          (goDate 2019 1 2 0 0 0 3600)) ∧
    IsHoliday ⟨3600, some errClient, "mycal", "Holidays"⟩ (goDate 2019 1 2 0 0 0 3600) =
      IsHoliday ⟨3600, none, "mycal", "Holidays"⟩ (goDate 2019 1 2 0 0 0 3600) :=
  isholiday_caldav_error_fallback ⟨3600, some errClient, "mycal", "Holidays"⟩
    (goDate 2019 1 2 0 0 0 3600) errClient "unreachable" rfl rfl

/-- C5: with a configured client whose day query succeeds, `IsHoliday` is
true as soon as some returned event summary contains the configured
pattern (regardless of the fixed set), and equals the fixed-list-only
result when no returned event summary contains the pattern (in particular
when no events are returned). -/
theorem isholiday_caldav_events (cal : Calendar) (date : GoTime) (client : Caldav)
    (evs : List Event) (hc : cal.cdav = some client)
    (hq : client cal.caldavPath (caldavWindow (holidayLookupDay cal date)) =
      Except.ok evs) :
    ((∃ evt ∈ evs, strContains evt.summary cal.caldavSummaryPattern = true) →
      IsHoliday cal date = true) ∧
    ((∀ evt ∈ evs, strContains evt.summary cal.caldavSummaryPattern = false) →
      IsHoliday cal date = IsHoliday { cal with cdav := none } date) := by
  have h2 : IsHoliday { cal with cdav := none } date
      = GetHolidaysSet cal (goYear date) (holidayLookupDay cal date) := by
    simp only [IsHoliday, IsHolidaysFromCaldav, Bool.or_false]
    rfl
  constructor
  · intro hex
    have hany : evs.any (fun evt => strContains evt.summary cal.caldavSummaryPattern) = true := by
      rw [List.any_eq_true]
      rcases hex with ⟨evt, hm, hs⟩
      exact ⟨evt, hm, hs⟩
    simp only [IsHoliday, IsHolidaysFromCaldav, hc, hq, hany, Bool.or_true]
  · intro hall
    have hany : evs.any (fun evt => strContains evt.summary cal.caldavSummaryPattern) = false := by
      rw [List.any_eq_false]
      intro evt hm
      simp [hall evt hm]
    simp only [IsHoliday, IsHolidaysFromCaldav, hc, hq, hany, Bool.or_false, h2]
    rfl

/-- C5 (witness): a matching event on 2019-01-02 (not a fixed holiday)
makes `IsHoliday` true. -/
theorem isholiday_caldav_events_witness :
    IsHoliday ⟨3600, some okHolidayClient, "mycal", "Holidays"⟩
      (goDate 2019 1 2 0 0 0 3600) = true :=
  (isholiday_caldav_events ⟨3600, some okHolidayClient, "mycal", "Holidays"⟩
      (goDate 2019 1 2 0 0 0 3600) okHolidayClient [⟨"Holidays ski"⟩] rfl rfl).1
    ⟨⟨"Holidays ski"⟩, by simp, by decide⟩

/-- C6 (amended): `IsHoliday` normalizes the lookup key to configured-zone
midnight but computes the holiday set for the year of the input in the
input's own location; without an override client the claimed equality with
fixed-set membership of the configured-zone civil day holds exactly when
the input's own-zone year agrees with its configured-zone year. -/
theorem isholiday_fixed_same_year (cal : Calendar) (date : GoTime)
    (hc : cal.cdav = none)
    (hy : goYear date = goYear (goIn date cal.Location)) :
    IsHoliday cal date =
      GetHolidaysSet cal (goYear (goIn date cal.Location)) (holidayLookupDay cal date) := by
  simp only [IsHoliday, IsHolidaysFromCaldav, hc, Bool.or_false, hy]

/-- C6 (counterexample): the instant 2019-12-31 23:30 UTC lies on civil day
2020-01-01 in the configured zone (UTC+1); the configured-zone civil day is
a holiday of its year, yet `IsHoliday` is false because the set was
computed for the unnormalized year 2019. -/
theorem isholiday_normalization_mismatch :
    IsHoliday calParis (goDate 2019 12 31 23 30 0 0) = false ∧
    GetHolidaysSet calParis (goYear (goIn (goDate 2019 12 31 23 30 0 0) calParis.Location))
      (holidayLookupDay calParis (goDate 2019 12 31 23 30 0 0)) = true := by
  decide

/-- C6 (witness): for a noon instant already expressed in the configured
zone the years agree and the amended equality applies. -/
theorem isholiday_fixed_same_year_witness :
    IsHoliday calParis (goDate 2020 7 14 12 0 0 3600) =
      GetHolidaysSet calParis
        (goYear (goIn (goDate 2020 7 14 12 0 0 3600) calParis.Location))
        (holidayLookupDay calParis (goDate 2020 7 14 12 0 0 3600)) :=
  isholiday_fixed_same_year calParis (goDate 2020 7 14 12 0 0 3600) rfl (by decide)

/-- C7 (amended): for every date, the override lookup window starts at the
instant of local midnight of the lookup day and ends 23 hours 59 minutes
later, the instant of local 23:59:00 of that civil day (not 23:59:59). -/
theorem caldav_window_endpoints (cal : Calendar) (date : GoTime) :
    (caldavWindow (holidayLookupDay cal date)).startSecs = (holidayLookupDay cal date).secs ∧
    (caldavWindow (holidayLookupDay cal date)).endSecs =
      (goDate (goYear (goIn date cal.Location)) (goMonth (goIn date cal.Location))
        (goDay (goIn date cal.Location)) 23 59 0 cal.Location).secs := by
  simp only [caldavWindow, holidayLookupDay, goUTC, goIn, goAdd, goDate]
  constructor
  · trivial
  · ring

/-- C7 (counterexample): the queried window for the day 2020-01-01 does not
extend to 23:59:59 as claimed; the instant 23:59:30 of that civil day lies
outside the window. -/
theorem caldav_window_not_2359_59 :
    ¬ ((caldavWindow (goDate 2020 1 1 0 0 0 3600)).endSecs =
        (goDate 2020 1 1 23 59 59 3600).secs) ∧
    (caldavWindow (goDate 2020 1 1 0 0 0 3600)).endSecs <
      (goDate 2020 1 1 23 59 30 3600).secs := by
  decide

/-- C8: the Easter computations of the two source revisions agree for every
year and every location (their `GetEasterDay` bodies are identical). -/
theorem old_new_easter_equal (y loc : Int) (cdav : Option Caldav) (path pat : String) :
    OldRev.GetEasterDay ⟨loc⟩ y = GetEasterDay ⟨loc, cdav, path, pat⟩ y := rfl

/-- C9: a calendar built with a client option but no summary-pattern option
keeps the default empty pattern, and then any nonempty successful query
result makes `IsHolidaysFromCaldav` report a holiday, whatever the event
summaries (every string contains the empty substring). -/
theorem new_without_pattern (loc : Int) (client : Caldav) (path : String) :
    (New loc [WithCaldav client, WithCaldavPath path]).caldavSummaryPattern = "" ∧
    ∀ (day : GoTime) (evs : List Event),
      client path (caldavWindow day) = Except.ok evs → evs ≠ [] →
      (IsHolidaysFromCaldav (New loc [WithCaldav client, WithCaldavPath path]) day).1 = true := by
  have hN : New loc [WithCaldav client, WithCaldavPath path] = ⟨loc, some client, path, ""⟩ := rfl
  rw [hN]
  refine ⟨rfl, ?_⟩
  intro day evs hq hne
  simp only [IsHolidaysFromCaldav, hq]
  cases evs with
  | nil => exact absurd rfl hne
  | cons evt rest =>
    simp [List.any_cons, strContains_empty_pattern]

/-- C9 (witness): a pattern-less calendar with a client returning one event
reports a CalDAV holiday on 2022-04-16. -/
theorem new_without_pattern_witness :
    (New 3600 [WithCaldav okHolidayClient, WithCaldavPath "mycal"]).caldavSummaryPattern = "" ∧
    (IsHolidaysFromCaldav (New 3600 [WithCaldav okHolidayClient, WithCaldavPath "mycal"])
      (goDate 2022 4 16 0 0 0 3600)).1 = true :=
  ⟨(new_without_pattern 3600 okHolidayClient "mycal").1,
    (new_without_pattern 3600 okHolidayClient "mycal").2 (goDate 2022 4 16 0 0 0 3600)
      [⟨"Holidays ski"⟩] rfl (by decide)⟩

/-- C10: for every year the month variable of `GetEasterDay` is 3 or 4
after the increment, never 2, so the dead `month == 2` branch is never
taken and the result is always March 31 plus the signed offset
`presJour - 31` days. -/
theorem easter_month_branch_dead (cal : Calendar) (y : Int) :
    easterMonth y ≠ 2 ∧
    GetEasterDay cal y =
      goAddDate (goDate y 3 31 0 0 0 cal.Location) (easterPresJour y - 31) := by
  constructor
  · rw [easterMonth_eq]
    by_cases hp : easterPresJour y > 31 <;> simp [hp]
  · unfold GetEasterDay
    rw [easterDay_eq]

end Domogeek
